import Mathlib

/-!
Verification of the qstrings repository: a shallow embedding of the
templated-query-string construction logic of `src/qstrings/Q.py`
(`parse_keys`, `BaseQ.__new__`, `BaseQ.limit`, `BaseQ.count`,
`DuckDBEngine.run`) together with models of the fragments of the external
collaborators (Python `string.Formatter` / `str.format`, the sqlglot
parser, the duckdb engine) that the repository's observable behavior
depends on.

Conventions: machine strings are Lean `String`s; Python dicts are
association lists looked up front-to-back (insertion order); fallible
Python code returns `Except`.  The single-quote, `\x7b` and `\x7d`
characters are built with `Char.ofNat` to keep string literals plain.
-/

set_option autoImplicit false

namespace QStrings

/-- The left-brace character of Python format templates. -/
def lbraceChar : Char := Char.ofNat 123

/-- The right-brace character of Python format templates. -/
def rbraceChar : Char := Char.ofNat 125

/-- The single-quote character used by SQL string literals. -/
def squoteChar : Char := Char.ofNat 39

/-- The single-quote character as a one-character string. -/
def squote : String := String.singleton squoteChar

/-- Python values that can appear as substitution arguments: the repository
passes strings (environment variables), booleans (`validate=True`) and
numbers through `**kwargs`. -/
inductive PyVal where
  | str (s : String)
  | bool (b : Bool)
  | int (n : Int)
  deriving Repr, DecidableEq

/-- Python `str(v)` as used by `str.format` substitution. -/
def PyVal.toStr : PyVal → String
  | .str s => s
  | .bool b => if b then "True" else "False"
  | .int n => toString n

/-- Python truthiness, as tested by `kwargs.get("validate")`. -/
def PyVal.truthy : PyVal → Bool
  | .str s => s ≠ ""
  | .bool b => b
  | .int n => n ≠ 0

/-- The Python exception kinds construction and execution can surface:
`TypeError` from `dict(**kwargs, **os.environ)` on a duplicated key,
`ValueError` from `string.Formatter` on a malformed template,
`QStringError` (the repository's own class) for missing template values,
`IndexError`/`KeyError` from `str.format`, and sqlglot's `ParseError`. -/
inductive PyError where
  | typeError (msg : String)
  | valueError (msg : String)
  | qstringError (msg : String)
  | indexError (msg : String)
  | keyError (msg : String)
  | parseError (msg : String)
  deriving Repr, DecidableEq

/-- First-match association-list lookup: Python `d[k]` / `d.get(k)` for a
dict represented in insertion order. -/
def lookup? {α : Type} : List (String × α) → String → Option α
  | [], _ => none
  | (k, v) :: rest, key => if k = key then some v else lookup? rest key

/-- Truthiness of an optional kwarg, as in `kwargs.get("validate")`:
an absent key is falsy. -/
def truthyOpt : Option PyVal → Bool
  | none => false
  | some v => v.truthy

/-- Items produced by scanning a format template: literal text chunks and
replacement fields.  A bare `\x7b\x7d` is a field whose name is `""`. -/
inductive FmtItem where
  | lit (s : String)
  | field (name : String)
  deriving Repr, DecidableEq

/-- Scan a replacement field body up to its closing brace, returning the
field name characters and the remainder of the template. -/
def scanField : List Char → Option (List Char × List Char)
  | [] => none
  | c :: rest =>
    if c = rbraceChar then some ([], rest)
    else
      match scanField rest with
      | some (n, r) => some (c :: n, r)
      | none => none

theorem scanField_length : ∀ (cs n r : List Char), scanField cs = some (n, r) →
    r.length < cs.length := by
  intro cs
  induction cs with
  | nil => intro n r h; simp [scanField] at h
  | cons c rest ih =>
    intro n r h
    simp only [scanField] at h
    by_cases hc : c = rbraceChar
    · simp [hc] at h
      obtain ⟨_, h2⟩ := h
      subst h2
      simp [List.length_cons]
    · simp [hc] at h
      cases hscan : scanField rest with
      | none => rw [hscan] at h; simp at h
      | some p =>
        rw [hscan] at h
        obtain ⟨n2, r2⟩ := p
        simp at h
        obtain ⟨_, h2⟩ := h
        subst h2
        have := ih n2 r2 hscan
        simp [List.length_cons]
        omega

/-- Diagnostic for a lone left brace, modelling Python's
`ValueError: Single (left brace) encountered in format string`. -/
def fmtErrOpenBrace : String := "Single left brace encountered in format string"

/-- Diagnostic for an unterminated replacement field, modelling Python's
`ValueError: expected closing brace before end of string`. -/
def fmtErrUnterminated : String := "expected closing brace before end of string"

/-- Diagnostic for a lone right brace, modelling Python's
`ValueError: Single (right brace) encountered in format string`. -/
def fmtErrCloseBrace : String := "Single right brace encountered in format string"

/-- Modelled from the spec: Python `string.Formatter().parse` on the
fragment used by the repository — literal text, `\x7b\x7b`/`\x7d\x7d`
escapes, and simple replacement fields `\x7bname\x7d` without conversion
or format-spec parts (the templates the spec discusses use none).  The
scan is written with explicit fuel so it is structurally recursive (and
hence evaluates inside the kernel); every step consumes at least one
character, so fuel equal to the input length — what the `formatterScan`
wrapper below supplies — always suffices, and the fuel-exhaustion branch
is unreachable from the wrapper. -/
def formatterScanF : Nat → List Char → Except String (List FmtItem)
  | _, [] => .ok []
  | 0, _ :: _ => .error "internal: fuel exhausted"
  | fuel + 1, c :: rest =>
    if c = lbraceChar then
      match rest with
      | [] => .error fmtErrOpenBrace
      | r2 :: rest2 =>
        if r2 = lbraceChar then
          match formatterScanF fuel rest2 with
          | .ok items => .ok (.lit (String.singleton lbraceChar) :: items)
          | .error e => .error e
        else
          match scanField (r2 :: rest2) with
          | some (n, r) =>
            match formatterScanF fuel r with
            | .ok items => .ok (.field (String.mk n) :: items)
            | .error e => .error e
          | none => .error fmtErrUnterminated
    else if c = rbraceChar then
      match rest with
      | [] => .error fmtErrCloseBrace
      | r2 :: rest2 =>
        if r2 = rbraceChar then
          match formatterScanF fuel rest2 with
          | .ok items => .ok (.lit (String.singleton rbraceChar) :: items)
          | .error e => .error e
        else .error fmtErrCloseBrace
    else
      match formatterScanF fuel rest with
      | .ok items => .ok (.lit (String.singleton c) :: items)
      | .error e => .error e

/-- Scan a template with sufficient fuel. -/
def formatterScan (cs : List Char) : Except String (List FmtItem) :=
  formatterScanF cs.length cs

/-- The distinct truthy field names of scanned template items: the loop
body of `parse_keys` (`if fname: keys.add(fname)`), which skips the empty
name of a bare `\x7b\x7d`. -/
def keysOf (items : List FmtItem) : List String :=
  (items.filterMap fun it =>
    match it with
    | .field n => if n = "" then none else some n
    | .lit _ => none).dedup

/-- Translation of `parse_keys` (Q.py lines 18–25): scan the template and
collect the distinct truthy field names; a scan failure propagates as the
`ValueError` Python's generator would raise. -/
def parse_keys (s : String) : Except String (List String) :=
  match formatterScan s.data with
  | .error e => .error e
  | .ok items => .ok (keysOf items)

/-- Modelled from the spec: substitution of one replacement field by
Python `str.format(**refs)` with no positional arguments — an empty or
all-digit field name is a positional reference and raises `IndexError`;
a named field looks up the keyword mapping. -/
def formatField (refs : List (String × PyVal)) (n : String) : Except PyError String :=
  if n = "" ∨ n.data.all Char.isDigit then
    .error (.indexError ("Replacement index " ++ (if n = "" then "0" else n) ++
      " out of range for positional args tuple"))
  else
    match lookup? refs n with
    | some v => .ok v.toStr
    | none => .error (.keyError n)

/-- Render scanned template items left to right, substituting fields;
the first failing field aborts, as Python raises at that point. -/
def renderItems (refs : List (String × PyVal)) : List FmtItem → Except PyError String
  | [] => .ok ""
  | .lit t :: rest =>
    match renderItems refs rest with
    | .ok tail => .ok (t ++ tail)
    | .error e => .error e
  | .field n :: rest =>
    match formatField refs n with
    | .error e => .error e
    | .ok v =>
      match renderItems refs rest with
      | .ok tail => .ok (v ++ tail)
      | .error e => .error e

/-- Modelled from the spec: Python `s.format(**refs)` (Q.py line 65) on
the same template fragment as `formatterScan`. -/
def pyFormat (s : String) (refs : List (String × PyVal)) : Except PyError String :=
  match formatterScan s.data with
  | .error e => .error (.valueError e)
  | .ok items => renderItems refs items

/-- The pool `dict(**kwargs, **os.environ)` would hold when no key
collides: explicit keyword arguments first, then the environment. -/
def mergedPool (kwargs : List (String × PyVal)) (env : List (String × String)) :
    List (String × PyVal) :=
  kwargs ++ env.map fun p => (p.1, PyVal.str p.2)

/-- Translation of `kwargs_plus_env = dict(**kwargs, **os.environ)` (Q.py
line 58).  Unpacking two mappings into one call raises `TypeError: got
multiple values for keyword argument k` whenever a key occurs in both, so
the merge is fallible. -/
def dictMerge (kwargs : List (String × PyVal)) (env : List (String × String)) :
    Except PyError (List (String × PyVal)) :=
  match env.find? (fun p => (lookup? kwargs p.1).isSome) with
  | some p => .error (.typeError ("got multiple values for keyword argument " ++ p.1))
  | none => .ok (mergedPool kwargs env)

/-- Message of the `QStringError` raised for missing template values
(Q.py line 63). -/
def missingMsg (ks : List String) : String :=
  "values missing for keys: " ++ String.intercalate ", " ks

/-- The value constructed by `BaseQ.__new__`: the formatted text payload
plus the attributes the spec models (`refs` ~ `references`, `ast` ~
`syntax_tree`, `ast_errors` ~ `parse_error`).  The timestamp-derived
bookkeeping fields (`id`, `exec_id`, `duration`) and the logging flag are
wall-clock/logging concerns and are not modelled. -/
structure BaseQVal (Ast : Type) where
  text : String
  refs : List (String × PyVal)
  ast : Option Ast
  ast_errors : String
  deriving Repr, DecidableEq

/-- Translation of `BaseQ.__new__` (Q.py lines 33–82) on the
literal-template path (the `file=` branch is I/O and is not modelled; `s`
is the raw template).  The stages in source order: merge kwargs with the
environment (line 58, fallible on key collision), scan the template for
keys (line 59), detect missing keys (lines 60–63), restrict the pool to
the referenced keys (line 64), substitute (line 65), and parse the
formatted text with the external parser, recording failure unless
`validate` is truthy (lines 74–81).  The source's locals `keys_missing`
and `refs` are inlined at their use sites (same values, no sharing is
observable). -/
def BaseQ.new {Ast : Type} (parseOne : String → Except String Ast) (s : String)
    (kwargs : List (String × PyVal)) (env : List (String × String)) :
    Except PyError (BaseQVal Ast) :=
  match dictMerge kwargs env with
  | .error e => .error e
  | .ok pool =>
    match parse_keys s with
    | .error m => .error (.valueError m)
    | .ok needed =>
      if (needed.filter fun k => (lookup? pool k).isNone).isEmpty then
        match pyFormat s (needed.filterMap fun k => (lookup? pool k).map fun v => (k, v)) with
        | .error e => .error e
        | .ok s_formatted =>
          match parseOne s_formatted with
          | .ok t =>
            .ok ⟨s_formatted, needed.filterMap fun k => (lookup? pool k).map fun v => (k, v),
              some t, ""⟩
          | .error e =>
            if truthyOpt (lookup? kwargs "validate") then .error (.parseError e)
            else
              .ok ⟨s_formatted, needed.filterMap fun k => (lookup? pool k).map fun v => (k, v),
                none, e⟩
      else .error (.qstringError (missingMsg (needed.filter fun k => (lookup? pool k).isNone)))

/-- Modelled from the spec: syntax trees of the external SQL parsing
facility (sqlglot), restricted to the `SELECT <integer-literal>` fragment
that the spec's examples (`SELECT 42`, `SELE 42`) exercise. -/
inductive SqlAst where
  | selectLit (lit : String)
  deriving Repr, DecidableEq

/-- Strip a leading `SELECT ` keyword (uppercase) from a character list. -/
def stripSelectKw : List Char → Option (List Char)
  | 'S' :: 'E' :: 'L' :: 'E' :: 'C' :: 'T' :: ' ' :: rest => some rest
  | _ => none

/-- Strip a leading `SELECT ` keyword, accepting either letter case, as
the external parser's keyword recognition does. -/
def stripSelectCI : List Char → Option (List Char)
  | c1 :: c2 :: c3 :: c4 :: c5 :: c6 :: c7 :: rest =>
    if (c1 = 'S' ∨ c1 = 's') ∧ (c2 = 'E' ∨ c2 = 'e') ∧ (c3 = 'L' ∨ c3 = 'l') ∧
        (c4 = 'E' ∨ c4 = 'e') ∧ (c5 = 'C' ∨ c5 = 'c') ∧ (c6 = 'T' ∨ c6 = 't') ∧
        c7 = ' ' then
      some rest
    else none
  | _ => none

/-- Diagnostic text of the external parser's ParseError for a text outside
the modelled fragment. -/
def sqlglotErrMsg (s : String) : String :=
  "Invalid expression / Unexpected token: " ++ s

/-- Modelled from the spec: `sqlglot.parse_one` on the fragment — the
keyword is case-insensitive, the argument of `SELECT` must be a non-empty
digit string. -/
def sqlglotParseOne (s : String) : Except String SqlAst :=
  match stripSelectCI s.data with
  | some rest =>
    if rest ≠ [] ∧ rest.all Char.isDigit then .ok (.selectLit (String.mk rest))
    else .error (sqlglotErrMsg s)
  | none => .error (sqlglotErrMsg s)

/-- Modelled from the spec: sqlglot's `Expression.sql` rendering for the
fragment, producing canonical uppercase text. -/
def SqlAst.sql : SqlAst → String
  | .selectLit lit => "SELECT " ++ lit

/-- Modelled from the spec: the message of the ParseError that sqlglot's
`maybe_parse` raises when handed `None` instead of SQL or an expression —
this is what `sqlglot.subquery(self.ast)` hits when `ast` is unset. -/
def sqlglotNoneMsg : String := "SQL cannot be None"

/-- Translation of `BaseQ.limit` (Q.py lines 90–91):
`sqlglot.subquery(self.ast).select("*").limit(n).q()`.  There is no
validity check in the source.  When `ast` is `None`, `sqlglot.subquery`
raises ParseError (`maybe_parse(None)`); otherwise the chain renders
`SELECT * FROM (<ast>) LIMIT n` and `.q()` re-runs `Q` construction on
that text (with no keyword arguments; the rendered SQL has no braces so
the environment cannot affect the outcome and is passed empty). -/
def BaseQ.limit (q : BaseQVal SqlAst) (n : Nat) : Except PyError (BaseQVal SqlAst) :=
  match q.ast with
  | none => .error (.parseError sqlglotNoneMsg)
  | some t =>
    BaseQ.new sqlglotParseOne ("SELECT * FROM (" ++ t.sql ++ ") LIMIT " ++ toString n) [] []

/-- Translation of the `BaseQ.count` property (Q.py lines 93–95):
`sqlglot.subquery(self.ast).select("COUNT(*) AS row_count").q()`, again
with no validity check, so an unset `ast` hits sqlglot's
`maybe_parse(None)` ParseError. -/
def BaseQ.count (q : BaseQVal SqlAst) : Except PyError (BaseQVal SqlAst) :=
  match q.ast with
  | none => .error (.parseError sqlglotNoneMsg)
  | some t =>
    BaseQ.new sqlglotParseOne ("SELECT COUNT(*) AS row_count FROM (" ++ t.sql ++ ")") [] []

/-- Scan a SQL string literal body up to its closing single quote,
returning the body and the remainder. -/
def scanToSquote : List Char → Option (List Char × List Char)
  | [] => none
  | c :: rest =>
    if c = squoteChar then some ([], rest)
    else
      match scanToSquote rest with
      | some (x, r) => some (c :: x, r)
      | none => none

/-- Diagnostic text of the embedded database's parse/execution error for a
text outside the modelled fragment. -/
def duckdbErrMsg (s : String) : String :=
  "Parser Error: syntax error at or near " ++ s

/-- Strip the literal text ` AS q, ` followed by an opening single quote,
as it occurs between the two columns of the fall-back query. -/
def stripAsQComma : List Char → Option (List Char)
  | ' ' :: 'A' :: 'S' :: ' ' :: 'q' :: ',' :: ' ' :: c :: rest =>
    if c = squoteChar then some rest else none
  | _ => none

/-- Modelled from the spec: the embedded analytical database
(`duckdb.connect().sql`) on the fragment the spec exercises — a relation
is a list of rows of strings; `SELECT <digits>` yields one row with that
value, and the exact two-column literal form `SELECT <lit> AS q, <lit> AS
r` (literals single-quoted, bodies quote-free) yields one row with the two
bodies.  Anything else raises an execution error whose message embeds the
offending text. -/
def duckdbSqlChars (cs : List Char) : Except String (List (List String)) :=
  match stripSelectKw cs with
  | none => .error (duckdbErrMsg (String.mk cs))
  | some rest =>
    if rest ≠ [] ∧ rest.all Char.isDigit then .ok [[String.mk rest]]
    else
      match rest with
      | [] => .error (duckdbErrMsg (String.mk cs))
      | c :: rest2 =>
        if c = squoteChar then
          match scanToSquote rest2 with
          | none => .error (duckdbErrMsg (String.mk cs))
          | some (x, rest3) =>
            match stripAsQComma rest3 with
            | none => .error (duckdbErrMsg (String.mk cs))
            | some rest4 =>
              match scanToSquote rest4 with
              | none => .error (duckdbErrMsg (String.mk cs))
              | some (y, rest5) =>
                if rest5 = " AS r".data then .ok [[String.mk x, String.mk y]]
                else .error (duckdbErrMsg (String.mk cs))
        else .error (duckdbErrMsg (String.mk cs))

/-- Modelled from the spec: `con.sql` on a query string. -/
def duckdbSql (s : String) : Except String (List (List String)) :=
  duckdbSqlChars s.data

/-- The synthetic diagnostic query built by the fall-back branch of
`DuckDBEngine.run` (Q.py line 180): the original text and the error
message are interpolated into single-quoted SQL string literals with no
escaping, exactly as the f-string does. -/
def fallbackQuery (q e : String) : String :=
  "SELECT " ++ squote ++ q ++ squote ++ " AS q, " ++ squote ++ e ++ squote ++ " AS r"

/-- Translation of `DuckDBEngine.run` (Q.py lines 173–181): run the text;
on an execution error build the synthetic one-row diagnostic query and run
it — the second `con.sql` call sits outside any handler, so its own
failure propagates.  (The connection handle and `shape` attribute it
attaches to the value are I/O bookkeeping and are not modelled.) -/
def DuckDBEngine.run (q : String) : Except String (List (List String)) :=
  match duckdbSql q with
  | .ok rel => .ok rel
  | .error e => duckdbSql (fallbackQuery q e)

/-! General lemmas about the embedding. -/

theorem mk_data (s : String) : String.mk s.data = s := rfl

theorem lookup?_append_some {α : Type} {a : List (String × α)} {k : String} {v : α}
    (b : List (String × α)) (h : lookup? a k = some v) : lookup? (a ++ b) k = some v := by
  induction a with
  | nil => simp [lookup?] at h
  | cons p rest ih =>
    obtain ⟨k0, v0⟩ := p
    simp only [lookup?, List.cons_append] at h ⊢
    by_cases hk : k0 = k
    · simpa [hk] using h
    · simp only [hk, if_false] at h ⊢
      exact ih h

theorem lookup?_append_none {α : Type} {a : List (String × α)} {k : String}
    (b : List (String × α)) (h : lookup? a k = none) : lookup? (a ++ b) k = lookup? b k := by
  induction a with
  | nil => simp [lookup?]
  | cons p rest ih =>
    obtain ⟨k0, v0⟩ := p
    simp only [lookup?, List.cons_append] at h ⊢
    by_cases hk : k0 = k
    · simp [hk] at h
    · simp only [hk, if_false] at h ⊢
      exact ih h

theorem lookup?_map_str (env : List (String × String)) (k : String) :
    lookup? (env.map fun p => (p.1, PyVal.str p.2)) k = (lookup? env k).map PyVal.str := by
  induction env with
  | nil => simp [lookup?]
  | cons p rest ih =>
    obtain ⟨k0, v0⟩ := p
    by_cases hk : k0 = k
    · simp [lookup?, hk]
    · simp [lookup?, hk, ih]

theorem mem_of_lookup?_some {α : Type} {l : List (String × α)} {k : String} {v : α}
    (h : lookup? l k = some v) : (k, v) ∈ l := by
  induction l with
  | nil => simp [lookup?] at h
  | cons p rest ih =>
    obtain ⟨k0, v0⟩ := p
    simp only [lookup?] at h
    by_cases hk : k0 = k
    · simp only [hk, if_true] at h
      cases h
      simp [hk]
    · simp only [hk, if_false] at h
      exact List.mem_cons_of_mem _ (ih h)

theorem lookup?_isSome_of_mem {α : Type} {l : List (String × α)} {k : String} {v : α}
    (h : (k, v) ∈ l) : (lookup? l k).isSome := by
  induction l with
  | nil => simp at h
  | cons p rest ih =>
    obtain ⟨k0, v0⟩ := p
    rcases List.mem_cons.mp h with h1 | h2
    · cases h1
      simp [lookup?]
    · simp only [lookup?]
      by_cases hk : k0 = k
      · simp [hk]
      · simp only [hk, if_false]
        exact ih h2

theorem formatterScanF_braceFree (cs : List Char) : ∀ fuel : Nat, cs.length ≤ fuel →
    lbraceChar ∉ cs → rbraceChar ∉ cs →
    formatterScanF fuel cs = .ok (cs.map fun c => .lit (String.singleton c)) := by
  induction cs with
  | nil => intro fuel _ _ _; cases fuel <;> rfl
  | cons c rest ih =>
    intro fuel hlen hl hr
    have hc1 : c ≠ lbraceChar := fun h => hl (h ▸ List.mem_cons_self c rest)
    have hc2 : c ≠ rbraceChar := fun h => hr (h ▸ List.mem_cons_self c rest)
    have hl2 : lbraceChar ∉ rest := fun h => hl (List.mem_cons_of_mem _ h)
    have hr2 : rbraceChar ∉ rest := fun h => hr (List.mem_cons_of_mem _ h)
    cases fuel with
    | zero => simp [List.length_cons] at hlen
    | succ f =>
      have hlen2 : rest.length ≤ f := by
        simp only [List.length_cons] at hlen
        omega
      simp [formatterScanF, hc1, hc2, ih f hlen2 hl2 hr2]

theorem formatterScan_braceFree (cs : List Char) (hl : lbraceChar ∉ cs)
    (hr : rbraceChar ∉ cs) :
    formatterScan cs = .ok (cs.map fun c => .lit (String.singleton c)) :=
  formatterScanF_braceFree cs cs.length le_rfl hl hr

theorem renderItems_lits (refs : List (String × PyVal)) (cs : List Char) :
    renderItems refs (cs.map fun c => .lit (String.singleton c)) = .ok (String.mk cs) := by
  induction cs with
  | nil => rfl
  | cons c rest ih => simp [renderItems, ih]; rfl

theorem keysOf_lits (cs : List Char) :
    keysOf (cs.map fun c => .lit (String.singleton c)) = [] := by
  rw [keysOf]
  induction cs with
  | nil => rfl
  | cons c rest ih => simp [ih]

theorem parse_keys_braceFree (s : String) (hl : lbraceChar ∉ s.data)
    (hr : rbraceChar ∉ s.data) : parse_keys s = .ok [] := by
  simp only [parse_keys, formatterScan_braceFree s.data hl hr, keysOf_lits]

theorem pyFormat_braceFree (s : String) (refs : List (String × PyVal))
    (hl : lbraceChar ∉ s.data) (hr : rbraceChar ∉ s.data) : pyFormat s refs = .ok s := by
  simp only [pyFormat, formatterScan_braceFree s.data hl hr, renderItems_lits, mk_data]

/-! Claim theorems. -/

/-- Observable check that a construction outcome is a `TypeError`. -/
def raisesTypeError {Ast : Type} (r : Except PyError (BaseQVal Ast)) : Prop :=
  match r with
  | .error (.typeError _) => True
  | _ => False

/-- Observable check that a construction outcome is an `IndexError`. -/
def raisesIndexError {Ast : Type} (r : Except PyError (BaseQVal Ast)) : Prop :=
  match r with
  | .error (.indexError _) => True
  | _ => False

/-- C1 counterexample.  The claim says an explicit substitution argument
is never shadowed by a same-named environment variable and that the
placeholder resolves to the explicit value.  At template `\x7bx\x7d` with
explicit argument `x="a"` and environment variable `x=b`, construction
does not resolve anything: `dict(**kwargs, **os.environ)` raises
`TypeError` for the duplicated name, so no value is produced at all. -/
theorem claim_C1_counterexample :
    BaseQ.new sqlglotParseOne "\x7bx\x7d" [("x", PyVal.str "a")] [("x", "b")] =
      .error (.typeError "got multiple values for keyword argument x") := by
  rfl

/-- C1 amended: when a placeholder name is supplied both as an explicit
argument and as an environment variable, construction fails with a
duplicate-keyword-argument `TypeError` (raised by the kwargs/environment
merge) instead of resolving the placeholder; and whenever construction
does succeed, every resolved reference comes from the explicit arguments
when the name is explicitly given, and from the environment only when it
is not. -/
theorem claim_C1_amended {Ast : Type} (parseOne : String → Except String Ast)
    (s : String) (kwargs : List (String × PyVal)) (env : List (String × String)) :
    ((∃ k, (lookup? kwargs k).isSome ∧ (lookup? env k).isSome) →
      raisesTypeError (BaseQ.new parseOne s kwargs env))
    ∧ (∀ q, BaseQ.new parseOne s kwargs env = .ok q → ∀ k v, (k, v) ∈ q.refs →
        lookup? kwargs k = some v ∨
          (lookup? kwargs k = none ∧ ∃ w, lookup? env k = some w ∧ v = PyVal.str w)) := by
  constructor
  · rintro ⟨k, hkw, henv⟩
    obtain ⟨w, hw⟩ := Option.isSome_iff_exists.mp henv
    have hfind : (env.find? fun p => (lookup? kwargs p.1).isSome).isSome := by
      rw [List.find?_isSome]
      exact ⟨(k, w), mem_of_lookup?_some hw, hkw⟩
    obtain ⟨p0, hp0⟩ := Option.isSome_iff_exists.mp hfind
    have hr : BaseQ.new parseOne s kwargs env =
        .error (.typeError ("got multiple values for keyword argument " ++ p0.1)) := by
      rw [BaseQ.new, dictMerge, hp0]
    rw [hr]
    trivial
  · intro q hq k v hmem
    rw [BaseQ.new] at hq
    cases hm : dictMerge kwargs env with
    | error e => rw [hm] at hq; exact absurd hq (by simp)
    | ok pool =>
      rw [hm] at hq
      have hpool : pool = mergedPool kwargs env := by
        rw [dictMerge] at hm
        cases hf : env.find? fun p => (lookup? kwargs p.1).isSome with
        | none => rw [hf] at hm; exact (Except.ok.injEq _ _).mp hm.symm
        | some p => rw [hf] at hm; exact absurd hm (by simp)
      cases hk : parse_keys s with
      | error m => rw [hk] at hq; exact absurd hq (by simp)
      | ok needed =>
        rw [hk] at hq
        simp only at hq
        split at hq
        · -- missing keys empty: q.refs is built by filterMap over needed
          have hrefs : q.refs =
              needed.filterMap fun k0 => (lookup? pool k0).map fun v0 => (k0, v0) := by
            split at hq
            · exact absurd hq (by simp)
            · split at hq
              · cases hq; rfl
              · split at hq
                · exact absurd hq (by simp)
                · cases hq; rfl
          rw [hrefs] at hmem
          obtain ⟨k0, _, hf0⟩ := List.mem_filterMap.mp hmem
          have hlk : lookup? pool k = some v := by
            cases hl0 : lookup? pool k0 with
            | none => simp [hl0] at hf0
            | some v0 =>
              simp only [hl0, Option.map] at hf0
              have hpair : k0 = k ∧ v0 = v := by
                have := hf0
                injection this with h2
                exact ⟨congrArg Prod.fst h2, congrArg Prod.snd h2⟩
              obtain ⟨h3, h4⟩ := hpair
              subst h3; subst h4
              exact hl0
          rw [hpool, mergedPool] at hlk
          cases hkw : lookup? kwargs k with
          | some v1 =>
            left
            rw [lookup?_append_some _ hkw] at hlk
            injection hlk with h5
            subst h5
            rfl
          | none =>
            right
            rw [lookup?_append_none _ hkw, lookup?_map_str] at hlk
            cases he : lookup? env k with
            | none => rw [he] at hlk; simp at hlk
            | some w =>
              rw [he] at hlk
              simp only [Option.map] at hlk
              injection hlk with h6
              exact ⟨rfl, w, rfl, h6.symm⟩
        · exact absurd hq (by simp)

/-- C1 witness: instantiating the amended theorem at the counterexample
input exhibits the duplicate-keyword failure concretely. -/
theorem claim_C1_witness :
    raisesTypeError (BaseQ.new sqlglotParseOne "SELECT 1" [("x", PyVal.str "a")] [("x", "b")]) :=
  (claim_C1_amended sqlglotParseOne "SELECT 1" [("x", PyVal.str "a")] [("x", "b")]).1
    ⟨"x", by rfl, by rfl⟩

/-- Merging kwargs with the environment succeeds exactly when no explicit
argument name is also an environment variable name. -/
theorem dictMerge_ok (kwargs : List (String × PyVal)) (env : List (String × String))
    (hnc : ∀ k, (lookup? kwargs k).isSome → (lookup? env k).isSome → False) :
    dictMerge kwargs env = .ok (mergedPool kwargs env) := by
  rw [dictMerge]
  have hf : (env.find? fun p => (lookup? kwargs p.1).isSome) = none := by
    rw [List.find?_eq_none]
    intro p hp hsome
    exact hnc p.1 hsome (lookup?_isSome_of_mem (l := env) (v := p.2) (by simpa using hp))
  rw [hf]

/-- Substituting a single field can only fail with an `IndexError` (empty
or all-digit name) or a `KeyError` (unknown keyword). -/
theorem formatField_error_kind (refs : List (String × PyVal)) (n : String) (e : PyError)
    (h : formatField refs n = .error e) :
    (∃ m, e = .indexError m) ∨ (∃ m, e = .keyError m) := by
  rw [formatField] at h
  split at h
  · injection h with h1
    exact .inl ⟨_, h1.symm⟩
  · cases hl : lookup? refs n with
    | some v => rw [hl] at h; exact absurd h (by simp)
    | none =>
      rw [hl] at h
      injection h with h1
      exact .inr ⟨_, h1.symm⟩

/-- Rendering scanned items can only fail with an `IndexError` or a
`KeyError`. -/
theorem renderItems_error_kind (refs : List (String × PyVal)) (items : List FmtItem)
    (e : PyError) (h : renderItems refs items = .error e) :
    (∃ m, e = .indexError m) ∨ (∃ m, e = .keyError m) := by
  induction items with
  | nil => simp [renderItems] at h
  | cons it rest ih =>
    cases it with
    | lit t =>
      rw [renderItems] at h
      cases hr : renderItems refs rest with
      | ok tail => rw [hr] at h; exact absurd h (by simp)
      | error e2 =>
        rw [hr] at h
        injection h with h1
        subst h1
        exact ih hr
    | field n =>
      rw [renderItems] at h
      cases hf : formatField refs n with
      | error e1 =>
        rw [hf] at h
        injection h with h1
        subst h1
        exact formatField_error_kind refs n _ hf
      | ok v =>
        rw [hf] at h
        cases hr : renderItems refs rest with
        | ok tail => rw [hr] at h; exact absurd h (by simp)
        | error e2 =>
          rw [hr] at h
          injection h with h1
          subst h1
          exact ih hr

/-- Formatting can only fail with a `ValueError` (malformed template), an
`IndexError` or a `KeyError` — in particular never with a `QStringError`. -/
theorem pyFormat_error_kind (s : String) (refs : List (String × PyVal)) (e : PyError)
    (h : pyFormat s refs = .error e) :
    (∃ m, e = .valueError m) ∨ (∃ m, e = .indexError m) ∨ (∃ m, e = .keyError m) := by
  rw [pyFormat] at h
  cases hs : formatterScan s.data with
  | error e0 =>
    rw [hs] at h
    injection h with h1
    exact .inl ⟨e0, h1.symm⟩
  | ok items =>
    rw [hs] at h
    rcases renderItems_error_kind refs items e h with h2 | h2
    · exact .inr (.inl h2)
    · exact .inr (.inr h2)

/-- C2 counterexample.  The claim says construction fails with a
missing-value error whenever placeholder `x` is absent from both the
explicit arguments and the environment.  With template `\x7bx\x7d`, the
unrelated explicit argument `y="1"` and environment variable `y=2`, `x`
is absent from both, yet construction fails with the merge's duplicate
keyword `TypeError` — not with a missing-value error. -/
theorem claim_C2_counterexample :
    BaseQ.new sqlglotParseOne "\x7bx\x7d" [("y", PyVal.str "1")] [("y", "2")] =
      .error (.typeError "got multiple values for keyword argument y") := by
  rfl

/-- C2 amended: provided no explicit argument name collides with an
environment variable name (otherwise the kwargs/environment merge fails
first with a `TypeError`), construction fails with a missing-value error
naming `x` iff `x` is absent from both the explicit arguments and the
environment; and when the missing set is empty no missing-value error is
raised (construction proceeds to substitution). -/
theorem claim_C2_amended {Ast : Type} (parseOne : String → Except String Ast)
    (s x : String) (kwargs : List (String × PyVal)) (env : List (String × String))
    (ks : List String)
    (hnc : ∀ k, (lookup? kwargs k).isSome → (lookup? env k).isSome → False)
    (hk : parse_keys s = .ok ks) (hx : x ∈ ks) :
    ((lookup? kwargs x = none ∧ lookup? env x = none) ↔
      (x ∈ ks.filter (fun k => (lookup? (mergedPool kwargs env) k).isNone) ∧
        BaseQ.new parseOne s kwargs env = .error (.qstringError
          (missingMsg (ks.filter fun k => (lookup? (mergedPool kwargs env) k).isNone)))))
    ∧ ((ks.filter fun k => (lookup? (mergedPool kwargs env) k).isNone) = [] →
        ∀ m, BaseQ.new parseOne s kwargs env ≠ .error (.qstringError m)) := by
  have hnew : BaseQ.new parseOne s kwargs env =
      (if (ks.filter fun k => (lookup? (mergedPool kwargs env) k).isNone).isEmpty then
         match pyFormat s
             (ks.filterMap fun k => (lookup? (mergedPool kwargs env) k).map fun v => (k, v)) with
         | .error e => .error e
         | .ok s_formatted =>
           match parseOne s_formatted with
           | .ok t =>
             .ok ⟨s_formatted,
               ks.filterMap fun k => (lookup? (mergedPool kwargs env) k).map fun v => (k, v),
               some t, ""⟩
           | .error e =>
             if truthyOpt (lookup? kwargs "validate") then .error (.parseError e)
             else
               .ok ⟨s_formatted,
                 ks.filterMap fun k => (lookup? (mergedPool kwargs env) k).map fun v => (k, v),
                 none, e⟩
       else .error (.qstringError
         (missingMsg (ks.filter fun k => (lookup? (mergedPool kwargs env) k).isNone)))) := by
    rw [BaseQ.new, dictMerge_ok kwargs env hnc, hk]
  constructor
  · constructor
    · rintro ⟨h1, h2⟩
      have hnone : lookup? (mergedPool kwargs env) x = none := by
        rw [mergedPool, lookup?_append_none _ h1, lookup?_map_str, h2]
        rfl
      have hmem : x ∈ ks.filter fun k => (lookup? (mergedPool kwargs env) k).isNone := by
        rw [List.mem_filter]
        exact ⟨hx, by rw [hnone]; rfl⟩
      refine ⟨hmem, ?_⟩
      rw [hnew]
      have hne : ¬ (ks.filter fun k =>
          (lookup? (mergedPool kwargs env) k).isNone).isEmpty := by
        rw [List.isEmpty_iff]
        exact List.ne_nil_of_mem hmem
      simp [hne]
    · rintro ⟨hmem, _⟩
      rw [List.mem_filter] at hmem
      have hnone : lookup? (mergedPool kwargs env) x = none :=
        Option.isNone_iff_eq_none.mp hmem.2
      rw [mergedPool] at hnone
      cases hkw : lookup? kwargs x with
      | some v =>
        rw [lookup?_append_some _ hkw] at hnone
        exact absurd hnone (by simp)
      | none =>
        refine ⟨rfl, ?_⟩
        rw [lookup?_append_none _ hkw, lookup?_map_str] at hnone
        exact Option.map_eq_none.mp hnone
  · intro hemp m hcon
    rw [hnew] at hcon
    simp only [hemp, List.isEmpty_nil, if_true] at hcon
    split at hcon
    · rename_i e heq
      injection hcon with h1
      rcases pyFormat_error_kind _ _ _ heq with ⟨m2, h2⟩ | ⟨m2, h2⟩ | ⟨m2, h2⟩ <;>
        (rw [h2] at h1; exact absurd h1 (by simp))
    · split at hcon
      · exact absurd hcon (by simp)
      · split at hcon
        · injection hcon with h1
          exact absurd h1 (by simp)
        · exact absurd hcon (by simp)

/-- C2 witness: with template `\x7bx\x7d` and nothing supplied,
construction fails with the missing-value error naming `x`. -/
theorem claim_C2_witness :
    "x" ∈ (["x"].filter fun k =>
      (lookup? (mergedPool ([] : List (String × PyVal)) ([] : List (String × String)))
        k).isNone) ∧
    BaseQ.new sqlglotParseOne "\x7bx\x7d" [] [] = .error (.qstringError
      (missingMsg (["x"].filter fun k =>
        (lookup? (mergedPool ([] : List (String × PyVal))
          ([] : List (String × String))) k).isNone))) :=
  ((claim_C2_amended sqlglotParseOne "\x7bx\x7d" "x" [] [] ["x"]
      (fun k h _ => by simp [lookup?] at h) (by rfl) (by simp)).1).mp ⟨rfl, rfl⟩

/-- Error diagnostics of the modelled external parser are never empty. -/
theorem sqlglotParseOne_error_nonempty (u e : String) (h : sqlglotParseOne u = .error e) :
    e ≠ "" := by
  have hmsg : e = sqlglotErrMsg u := by
    rw [sqlglotParseOne] at h
    split at h
    · split at h
      · exact absurd h (by simp)
      · injection h with h1
        exact h1.symm
    · injection h with h1
      exact h1.symm
  subst hmsg
  intro hc
  have hd := congrArg String.data hc
  rw [sqlglotErrMsg, String.data_append] at hd
  simp at hd

/-- C3: for every syntactically invalid SQL text (brace-free, so it is its
own template) the default construction succeeds with `ast` unset and the
parser's non-empty diagnostic recorded, while `validate=True` promotes the
same parse failure to a fatal `ParseError`; the ambient environment is
arbitrary as long as it does not collide with the `validate` keyword
argument. -/
theorem claim_C3 {Ast : Type} (parseOne : String → Except String Ast) (s e : String)
    (env : List (String × String)) (hl : lbraceChar ∉ s.data) (hr : rbraceChar ∉ s.data)
    (hp : parseOne s = .error e) (hne : e ≠ "")
    (henv : lookup? env "validate" = none) :
    (BaseQ.new parseOne s [] env = .ok ⟨s, [], none, e⟩ ∧ e ≠ "") ∧
    BaseQ.new parseOne s [("validate", PyVal.bool true)] env = .error (.parseError e) := by
  have hkeys := parse_keys_braceFree s hl hr
  refine ⟨⟨?_, hne⟩, ?_⟩
  · rw [BaseQ.new, dictMerge_ok [] env (fun k h _ => by simp [lookup?] at h), hkeys]
    simp only [List.filter_nil, List.isEmpty_nil, if_true, List.filterMap_nil]
    rw [pyFormat_braceFree s [] hl hr]
    simp [hp, truthyOpt, lookup?]
  · have hnc : ∀ k, (lookup? [("validate", PyVal.bool true)] k).isSome →
        (lookup? env k).isSome → False := by
      intro k h1 h2
      by_cases hk : "validate" = k
      · subst hk
        rw [henv] at h2
        simp at h2
      · simp [lookup?, hk] at h1
    rw [BaseQ.new, dictMerge_ok _ env hnc, hkeys]
    simp only [List.filter_nil, List.isEmpty_nil, if_true, List.filterMap_nil]
    rw [pyFormat_braceFree s [] hl hr]
    simp [hp, truthyOpt, lookup?, PyVal.truthy]

/-- C3 witness: the spec's example `SELE 42`. -/
theorem claim_C3_witness :
    (BaseQ.new sqlglotParseOne "SELE 42" [] [] =
      .ok ⟨"SELE 42", [], none, sqlglotErrMsg "SELE 42"⟩ ∧ sqlglotErrMsg "SELE 42" ≠ "") ∧
    BaseQ.new sqlglotParseOne "SELE 42" [("validate", PyVal.bool true)] [] =
      .error (.parseError (sqlglotErrMsg "SELE 42")) :=
  claim_C3 sqlglotParseOne "SELE 42" (sqlglotErrMsg "SELE 42") []
    (by decide) (by decide) (by rfl) (by decide) (by rfl)

/-- C5: every successfully constructed value is in exactly one of the two
parse states — tree set with empty error text, or tree unset with the
parser's non-empty diagnostic as error text — and the recorded state is
precisely the external parser's verdict on the constructed text.  In this
pure embedding every derived operation returns a new value, so no
operation can change the state after construction (and in the source,
none of `limit`/`count`/`transpile`/`dict` assigns to `ast` or
`ast_errors`). -/
theorem claim_C5 {Ast : Type} (parseOne : String → Except String Ast) (s : String)
    (kwargs : List (String × PyVal)) (env : List (String × String)) (q : BaseQVal Ast)
    (h : BaseQ.new parseOne s kwargs env = .ok q)
    (hne : ∀ u e2, parseOne u = .error e2 → e2 ≠ "") :
    ((q.ast.isSome ∧ q.ast_errors = "") ∨ (q.ast = none ∧ q.ast_errors ≠ "")) ∧
    parseOne q.text = (match q.ast with
      | some t => .ok t
      | none => .error q.ast_errors) := by
  rw [BaseQ.new] at h
  split at h
  · exact absurd h (by simp)
  · split at h
    · exact absurd h (by simp)
    · split at h
      · split at h
        · exact absurd h (by simp)
        · split at h
          · rename_i t hpt
            injection h with h1
            subst h1
            exact ⟨.inl ⟨rfl, rfl⟩, hpt⟩
          · rename_i e2 hpe
            split at h
            · exact absurd h (by simp)
            · injection h with h1
              subst h1
              exact ⟨.inr ⟨rfl, hne _ e2 hpe⟩, hpe⟩
      · exact absurd h (by simp)

/-- The constructed value of the spec's example `SELECT 42`. -/
def q42 : BaseQVal SqlAst := ⟨"SELECT 42", [], some (.selectLit "42"), ""⟩

/-- C5 witness: the value constructed from `SELECT 42` is in the `Parsed`
state and its text re-parses to its stored tree. -/
theorem claim_C5_witness :
    ((q42.ast.isSome ∧ q42.ast_errors = "") ∨ (q42.ast = none ∧ q42.ast_errors ≠ "")) ∧
    sqlglotParseOne q42.text = (match q42.ast with
      | some t => .ok t
      | none => .error q42.ast_errors) :=
  claim_C5 sqlglotParseOne "SELECT 42" [] [] q42 (by rfl) sqlglotParseOne_error_nonempty

/-- Restricting the pool to a key list whose every key resolves keeps
exactly that key list, in order. -/
theorem filterMap_refs_keys (pool : List (String × PyVal)) :
    ∀ ks : List String, (∀ k ∈ ks, ¬ (lookup? pool k).isNone) →
    ((ks.filterMap fun k => (lookup? pool k).map fun v => (k, v)).map Prod.fst) = ks := by
  intro ks
  induction ks with
  | nil => intro _; rfl
  | cons k rest ih =>
    intro hall
    have h1 : ¬ (lookup? pool k).isNone := hall k (by simp)
    cases hl : lookup? pool k with
    | none => rw [hl] at h1; simp at h1
    | some v =>
      simp only [List.filterMap_cons, hl, Option.map_some', List.map_cons]
      rw [ih fun k2 hk2 => hall k2 (List.mem_cons_of_mem _ hk2)]

/-- C6: on success the reference mapping binds exactly the placeholder
keys discovered in the raw template, in discovery order, and every bound
value comes from the kwargs-plus-environment pool. -/
theorem claim_C6 {Ast : Type} (parseOne : String → Except String Ast) (s : String)
    (kwargs : List (String × PyVal)) (env : List (String × String)) (ks : List String)
    (q : BaseQVal Ast) (hk : parse_keys s = .ok ks)
    (h : BaseQ.new parseOne s kwargs env = .ok q) :
    q.refs.map Prod.fst = ks ∧
    ∀ k v, (k, v) ∈ q.refs → lookup? (mergedPool kwargs env) k = some v := by
  rw [BaseQ.new] at h
  split at h
  · exact absurd h (by simp)
  · rename_i pool hm
    split at h
    · rename_i m hk2
      rw [hk] at hk2
      exact absurd hk2 (by simp)
    · rename_i needed hk2
      rw [hk] at hk2
      injection hk2 with hks
      subst hks
      have hpool : pool = mergedPool kwargs env := by
        rw [dictMerge] at hm
        cases hf : env.find? fun p => (lookup? kwargs p.1).isSome with
        | none =>
          rw [hf] at hm
          injection hm with h1
          exact h1.symm
        | some p =>
          rw [hf] at hm
          exact absurd hm (by simp)
      subst hpool
      split at h
      · rename_i hempty
        have hall : ∀ k ∈ ks, ¬ (lookup? (mergedPool kwargs env) k).isNone := by
          intro k hkmem hnone
          have hmem2 : k ∈ ks.filter fun k => (lookup? (mergedPool kwargs env) k).isNone :=
            List.mem_filter.mpr ⟨hkmem, hnone⟩
          rw [List.isEmpty_iff] at hempty
          rw [hempty] at hmem2
          exact absurd hmem2 (by simp)
        have hrefs : q.refs =
            ks.filterMap fun k => (lookup? (mergedPool kwargs env) k).map fun v =>
              (k, v) := by
          split at h
          · exact absurd h (by simp)
          · split at h
            · cases h; rfl
            · split at h
              · exact absurd h (by simp)
              · cases h; rfl
        constructor
        · rw [hrefs]
          exact filterMap_refs_keys (mergedPool kwargs env) ks hall
        · intro k v hmem
          rw [hrefs] at hmem
          obtain ⟨k0, _, hf0⟩ := List.mem_filterMap.mp hmem
          cases hl0 : lookup? (mergedPool kwargs env) k0 with
          | none => simp [hl0] at hf0
          | some v0 =>
            simp only [hl0, Option.map] at hf0
            injection hf0 with h2
            have h3 : k0 = k := congrArg Prod.fst h2
            have h4 : v0 = v := congrArg Prod.snd h2
            subst h3; subst h4
            exact hl0
      · exact absurd h (by simp)

/-- C6 witness: template `SELECT \x7bx\x7d` with `x=42` resolves exactly
the reference `x`. -/
theorem claim_C6_witness :
    (BaseQVal.mk "SELECT 42" [("x", PyVal.int 42)] (some (SqlAst.selectLit "42"))
      "").refs.map Prod.fst = ["x"] :=
  (claim_C6 sqlglotParseOne "SELECT \x7bx\x7d" [("x", PyVal.int 42)] [] ["x"]
    ⟨"SELECT 42", [("x", PyVal.int 42)], some (.selectLit "42"), ""⟩ (by rfl) (by rfl)).1

/-- C4 counterexample.  The claim says `limit`/`count` on a value whose
`syntax_tree` is unset fail with a "cannot transform invalid query" error.
In the source neither method checks validity (only `transpile` raises the
repository's own `QStringError("Cannot transpile invalid SQL")`): they
pass `self.ast = None` straight to `sqlglot.subquery`, whose `maybe_parse`
raises the external ParseError `SQL cannot be None`.  Constructing the
invalid value from `SELE 42` and calling `limit(5)` and `count` exhibits
exactly that external error. -/
theorem claim_C4_counterexample :
    (BaseQ.new sqlglotParseOne "SELE 42" [] []).bind (fun q => BaseQ.limit q 5) =
      .error (.parseError sqlglotNoneMsg) ∧
    (BaseQ.new sqlglotParseOne "SELE 42" [] []).bind (fun q => BaseQ.count q) =
      .error (.parseError sqlglotNoneMsg) := ⟨rfl, rfl⟩

/-- C4 amended: for every constructed value whose `syntax_tree` is unset,
`limit(n)` and `count` do fail at call time and return no value, but with
the external parser's `SQL cannot be None` ParseError (no validity check
exists in either method), not with a repository-level "cannot transform
invalid query" error. -/
theorem claim_C4_amended (q : BaseQVal SqlAst) (n : Nat) (h : q.ast = none) :
    BaseQ.limit q n = .error (.parseError sqlglotNoneMsg) ∧
    BaseQ.count q = .error (.parseError sqlglotNoneMsg) := by
  rw [BaseQ.limit, BaseQ.count, h]
  exact ⟨rfl, rfl⟩

/-- C4 witness: the invalid value constructed from `SELE 42`. -/
theorem claim_C4_witness :
    BaseQ.limit ⟨"SELE 42", [], none, sqlglotErrMsg "SELE 42"⟩ 5 =
      .error (.parseError sqlglotNoneMsg) ∧
    BaseQ.count (⟨"SELE 42", [], none, sqlglotErrMsg "SELE 42"⟩ : BaseQVal SqlAst) =
      .error (.parseError sqlglotNoneMsg) :=
  claim_C4_amended ⟨"SELE 42", [], none, sqlglotErrMsg "SELE 42"⟩ 5 rfl

/-- C8: the modelled parse–render–parse round trip is stable — any tree
obtained by parsing renders to text that re-parses to the same tree — and
the spec's example holds exactly: `SELECT 42` constructs with the tree
set and empty error text, and rendering the tree yields `SELECT 42`. -/
theorem claim_C8 :
    (∀ (s : String) (t : SqlAst), sqlglotParseOne s = .ok t →
      sqlglotParseOne t.sql = .ok t) ∧
    BaseQ.new sqlglotParseOne "SELECT 42" [] [] = .ok q42 ∧
    SqlAst.sql (.selectLit "42") = "SELECT 42" := by
  refine ⟨?_, by rfl, by rfl⟩
  intro s t h
  rw [sqlglotParseOne] at h
  split at h
  · rename_i rest hs
    split at h
    · rename_i hcond
      injection h with h1
      subst h1
      rw [SqlAst.sql, sqlglotParseOne]
      have hdata : ("SELECT " ++ String.mk rest).data =
          'S' :: 'E' :: 'L' :: 'E' :: 'C' :: 'T' :: ' ' :: rest := by
        rw [String.data_append]
        rfl
      rw [hdata]
      simp [stripSelectCI, hcond]
    · exact absurd h (by simp)
  · exact absurd h (by simp)

/-- C8 witness: the round-trip theorem applied to the lowercase text
`select 7`, whose rendering `SELECT 7` re-parses to the same tree. -/
theorem claim_C8_witness :
    sqlglotParseOne (SqlAst.sql (.selectLit "7")) = .ok (.selectLit "7") :=
  claim_C8.1 "select 7" (.selectLit "7") (by rfl)

theorem scanToSquote_append (xs tail : List Char) (hx : squoteChar ∉ xs) :
    scanToSquote (xs ++ squoteChar :: tail) = some (xs, tail) := by
  induction xs with
  | nil => simp [scanToSquote]
  | cons c rest ih =>
    have hc : c ≠ squoteChar := fun hcc => hx (hcc ▸ List.mem_cons_self c rest)
    have hrest : squoteChar ∉ rest := fun hm => hx (List.mem_cons_of_mem _ hm)
    simp [scanToSquote, hc, ih hrest]

/-- Character-level shape of the synthetic fall-back query. -/
theorem fallbackQuery_data (s e : String) :
    (fallbackQuery s e).data =
      'S' :: 'E' :: 'L' :: 'E' :: 'C' :: 'T' :: ' ' :: squoteChar ::
        (s.data ++ squoteChar :: ' ' :: 'A' :: 'S' :: ' ' :: 'q' :: ',' :: ' ' :: squoteChar ::
          (e.data ++ squoteChar :: ' ' :: 'A' :: 'S' :: ' ' :: 'r' :: [])) := by
  have hsel : ("SELECT " : String).data = ['S', 'E', 'L', 'E', 'C', 'T', ' '] := rfl
  have hq : (" AS q, " : String).data = [' ', 'A', 'S', ' ', 'q', ',', ' '] := rfl
  have hr : (" AS r" : String).data = [' ', 'A', 'S', ' ', 'r'] := rfl
  have hsq : squote.data = [squoteChar] := rfl
  rw [fallbackQuery]
  simp [String.data_append, hsel, hq, hr, hsq, List.append_assoc]

/-- Running the synthetic fall-back query succeeds with the intended
one-row relation exactly when neither interpolated piece contains a
single quote. -/
theorem duckdbSql_fallback (s e : String) (hs : squoteChar ∉ s.data)
    (he : squoteChar ∉ e.data) : duckdbSql (fallbackQuery s e) = .ok [[s, e]] := by
  have hsq : squoteChar.isDigit = false := by decide
  rw [duckdbSql, fallbackQuery_data]
  simp only [duckdbSqlChars, stripSelectKw]
  simp [hsq, scanToSquote_append, hs, he, stripAsQComma, mk_data]

/-- C7 counterexample.  The claim says `run` never propagates an
execution error.  For the failing text `SELECT 'abc` (an unterminated
string literal), the text's own quote makes the synthetic fall-back query
malformed, so the second engine call fails and `run` propagates that
error instead of returning a synthetic row. -/
theorem claim_C7_counterexample :
    DuckDBEngine.run ("SELECT " ++ squote ++ "abc") =
      .error (duckdbErrMsg (fallbackQuery ("SELECT " ++ squote ++ "abc")
        (duckdbErrMsg ("SELECT " ++ squote ++ "abc")))) := rfl

/-- C7 amended: for every failing query text such that neither the text
nor the engine's error message contains a single quote, `run` swallows
the error and returns the synthetic one-row result whose first column is
the original text and whose second column is the error message; the
spec's example `SELE 42` is such a text. -/
theorem claim_C7_amended (s e : String) (hfail : duckdbSql s = .error e)
    (hs : squoteChar ∉ s.data) (he : squoteChar ∉ e.data) :
    DuckDBEngine.run s = .ok [[s, e]] := by
  rw [DuckDBEngine.run, hfail]
  exact duckdbSql_fallback s e hs he

/-- C7 witness: executing `SELE 42` returns the synthetic row rather than
raising. -/
theorem claim_C7_witness :
    DuckDBEngine.run "SELE 42" = .ok [["SELE 42", duckdbErrMsg "SELE 42"]] :=
  claim_C7_amended "SELE 42" (duckdbErrMsg "SELE 42") rfl (by decide) (by decide)

/-- C10: for the failing query text `SELECT 'x`, which contains a single
quote, the fall-back path interpolates text and error message unescaped
into SQL string literals, the resulting synthetic query is itself
malformed, and `run` fails instead of returning the synthetic one-row
result. -/
theorem claim_C10 :
    squoteChar ∈ ("SELECT " ++ squote ++ "x").data ∧
    duckdbSql ("SELECT " ++ squote ++ "x") =
      .error (duckdbErrMsg ("SELECT " ++ squote ++ "x")) ∧
    DuckDBEngine.run ("SELECT " ++ squote ++ "x") =
      .error (duckdbErrMsg (fallbackQuery ("SELECT " ++ squote ++ "x")
        (duckdbErrMsg ("SELECT " ++ squote ++ "x")))) :=
  ⟨by decide, rfl, rfl⟩

/-- C9 counterexample.  The claim says a positional placeholder `\x7b0\x7d`
is excluded from the tracked key set so that missing-key detection passes
and substitution then fails with an indexing error.  In fact `parse_keys`
tests `if fname:` and the name `"0"` is truthy, so `\x7b0\x7d` IS tracked
as key `0`; with nothing supplied, construction fails with the
missing-value `QStringError` naming `0`, never reaching substitution. -/
theorem claim_C9_counterexample :
    parse_keys "\x7b0\x7d" = .ok ["0"] ∧
    BaseQ.new sqlglotParseOne "\x7b0\x7d" [] [] =
      .error (.qstringError (missingMsg ["0"])) := ⟨rfl, rfl⟩

/-- The empty field name of a bare `\x7b\x7d` is never a tracked key. -/
theorem keysOf_not_empty_mem (items : List FmtItem) : "" ∉ keysOf items := by
  rw [keysOf]
  intro hmem
  rw [List.mem_dedup] at hmem
  obtain ⟨it, _, hf⟩ := List.mem_filterMap.mp hmem
  cases it with
  | lit t => simp at hf
  | field n =>
    by_cases hn : n = ""
    · simp [hn] at hf
    · simp [hn] at hf

/-- A named field occurring in the scanned items is a tracked key. -/
theorem mem_keysOf_of_field {items : List FmtItem} {n : String}
    (h : FmtItem.field n ∈ items) (hn : n ≠ "") : n ∈ keysOf items := by
  rw [keysOf, List.mem_dedup]
  exact List.mem_filterMap.mpr ⟨_, h, by simp [hn]⟩

/-- A tracked key that resolves in the pool also resolves in the
restricted reference mapping. -/
theorem lookup?_refs (pool : List (String × PyVal)) :
    ∀ (ks : List String) (n : String) (v : PyVal), n ∈ ks → lookup? pool n = some v →
    lookup? (ks.filterMap fun k => (lookup? pool k).map fun v0 => (k, v0)) n = some v := by
  intro ks
  induction ks with
  | nil => intro n v h _; simp at h
  | cons k rest ih =>
    intro n v hmem hl
    rcases List.mem_cons.mp hmem with h1 | h2
    · subst h1
      simp [List.filterMap_cons, hl, lookup?]
    · cases hk : lookup? pool k with
      | none =>
        simp only [List.filterMap_cons, hk, Option.map_none']
        exact ih n v h2 hl
      | some vk =>
        simp only [List.filterMap_cons, hk, Option.map_some', lookup?]
        by_cases hkn : k = n
        · subst hkn
          rw [hk] at hl
          simpa using hl
        · simp only [hkn, if_false]
          exact ih n v h2 hl

/-- Rendering items that contain a bare `\x7b\x7d` field fails with an
`IndexError` provided every named, non-positional field resolves. -/
theorem renderItems_empty_field (refs : List (String × PyVal)) :
    ∀ items : List FmtItem, FmtItem.field "" ∈ items →
    (∀ n, FmtItem.field n ∈ items → n ≠ "" → ¬ (n.data.all Char.isDigit = true) →
      (lookup? refs n).isSome) →
    ∃ m, renderItems refs items = .error (.indexError m) := by
  intro items
  induction items with
  | nil => intro h _; simp at h
  | cons it rest ih =>
    intro hmem hres
    cases it with
    | lit t =>
      have h2 : FmtItem.field "" ∈ rest := by
        rcases List.mem_cons.mp hmem with h1 | h1
        · exact absurd h1 (by simp)
        · exact h1
      obtain ⟨m, hm⟩ := ih h2 fun n hn => hres n (List.mem_cons_of_mem _ hn)
      exact ⟨m, by rw [renderItems, hm]⟩
    | field n =>
      by_cases hn : n = ""
      · subst hn
        refine ⟨"Replacement index " ++ "0" ++
          " out of range for positional args tuple", ?_⟩
        rw [renderItems, formatField]
        simp
      · by_cases hd : n.data.all Char.isDigit = true
        · refine ⟨"Replacement index " ++ n ++
            " out of range for positional args tuple", ?_⟩
          rw [renderItems, formatField]
          simp [hn, hd]
        · have hsome := hres n (by simp) hn hd
          obtain ⟨v, hv⟩ := Option.isSome_iff_exists.mp hsome
          have h2 : FmtItem.field "" ∈ rest := by
            rcases List.mem_cons.mp hmem with h1 | h1
            · exact absurd (by injection h1 with h3; exact h3.symm) hn
            · exact h1
          obtain ⟨m, hm⟩ := ih h2 fun n2 hn2 => hres n2 (List.mem_cons_of_mem _ hn2)
          refine ⟨m, ?_⟩
          rw [renderItems, formatField]
          simp [hn, hd, hv, hm]

/-- C9 amended: only the bare `\x7b\x7d` field is excluded from the
tracked key set; a template whose scan contains such a field, with the
kwargs/environment merge succeeding and every tracked key resolving (so
missing-key detection passes), fails construction at the substitution
step with an `IndexError` — not a missing-value error.  A numbered
placeholder such as `\x7b0\x7d` is instead tracked as a key (see the
counterexample). -/
theorem claim_C9_amended {Ast : Type} (parseOne : String → Except String Ast) (s : String)
    (kwargs : List (String × PyVal)) (env : List (String × String)) (items : List FmtItem)
    (hscan : formatterScan s.data = .ok items) (hfield : FmtItem.field "" ∈ items)
    (hnc : ∀ k, (lookup? kwargs k).isSome → (lookup? env k).isSome → False)
    (hcov : ∀ k ∈ keysOf items, ¬ (lookup? (mergedPool kwargs env) k).isNone) :
    "" ∉ keysOf items ∧ raisesIndexError (BaseQ.new parseOne s kwargs env) := by
  refine ⟨keysOf_not_empty_mem items, ?_⟩
  have hkeys : parse_keys s = .ok (keysOf items) := by rw [parse_keys, hscan]
  have hres : ∀ n, FmtItem.field n ∈ items → n ≠ "" →
      ¬ (n.data.all Char.isDigit = true) →
      (lookup? ((keysOf items).filterMap fun k =>
        (lookup? (mergedPool kwargs env) k).map fun v => (k, v)) n).isSome := by
    intro n hn hne hnd
    have hmemk : n ∈ keysOf items := mem_keysOf_of_field hn hne
    have hcv := hcov n hmemk
    cases hl : lookup? (mergedPool kwargs env) n with
    | none => rw [hl] at hcv; simp at hcv
    | some v =>
      rw [lookup?_refs (mergedPool kwargs env) (keysOf items) n v hmemk hl]
      rfl
  obtain ⟨m, hm⟩ := renderItems_empty_field _ items hfield hres
  have hpf : pyFormat s ((keysOf items).filterMap fun k =>
      (lookup? (mergedPool kwargs env) k).map fun v => (k, v)) = .error (.indexError m) := by
    rw [pyFormat, hscan]
    exact hm
  have hmiss : ((keysOf items).filter fun k =>
      (lookup? (mergedPool kwargs env) k).isNone).isEmpty = true := by
    rw [List.isEmpty_iff, List.filter_eq_nil_iff]
    exact hcov
  rw [BaseQ.new, dictMerge_ok kwargs env hnc, hkeys]
  simp [hmiss, hpf, raisesIndexError]

/-- C9 witness: the bare template `\x7b\x7d` with nothing supplied passes
missing-key detection and fails substitution with an `IndexError`. -/
theorem claim_C9_witness :
    "" ∉ keysOf [FmtItem.field ""] ∧
    raisesIndexError (BaseQ.new sqlglotParseOne "\x7b\x7d" [] []) :=
  claim_C9_amended sqlglotParseOne "\x7b\x7d" [] [] [.field ""] (by rfl) (by simp)
    (fun k h _ => by simp [lookup?] at h)
    (fun k hk => by
      rw [show keysOf [FmtItem.field ""] = [] from rfl] at hk
      exact absurd hk (by simp))

end QStrings
